import Mathlib

-- Shallow embedding of src/train_early_exit.py (speculative decoding with an
-- early-exit draft head) and, where that script imports code from the external
-- speculative_decoding package, of the behaviour the spec prescribes for it.
-- Machine reals of the script (losses, probabilities, wall-clock times) are
-- modelled by rationals; Python strings of characters by lists of code points.

namespace SpecDec

-- Constants, src/train_early_exit.py lines 22-34.

def NUM_BATCHES : ℕ := 100000

def BATCH_SIZE : ℕ := 4

def GRAD_ACCUM_EVERY : ℕ := 4

def LEARNING_RATE : ℚ := 1 / 10000

def VALIDATE_EVERY : ℕ := 100

def PRIME_LENGTH : ℕ := 128

def GENERATE_EVERY : ℕ := 500

def GENERATE_LENGTH : ℕ := 512

def SEQ_LEN : ℕ := 512

def GAMMA : ℕ := 5

def EARLY_EXIT_LOSS_WEIGHT : ℚ := 1

/-- Line 34: DEVICE_STR is "cuda" exactly when torch.cuda.is_available(). -/
def DEVICE_STR (cudaAvailable : Bool) : String :=
  if cudaAvailable then "cuda" else "cpu"

-- decode_token / decode_tokens, lines 45-50.  A Python character is modelled
-- by its code point (chr is injective on code points), so decode_tokens maps a
-- list of token integers to the list of code points of the rendered string.

/-- Line 45: decode_token returns chr(max(32, token)), modelled as the code point. -/
def decode_token (token : ℕ) : ℕ := max 32 token

/-- Line 49: decode_tokens concatenates decode_token over the token list. -/
def decode_tokens (tokens : List ℕ) : List ℕ := tokens.map decode_token

-- TextSamplerDataset, lines 89-101.  __getitem__ draws rand_start uniformly
-- from [0, data_size - seq_len) and returns data[rand_start : rand_start + seq_len + 1];
-- the draw is modelled by passing rand_start with its range constraint as a bound.

structure TextSamplerDataset where
  data : List ℕ
  seq_len : ℕ

/-- Lines 95-98: the slice data[rand_start : rand_start + seq_len + 1]. -/
def TextSamplerDataset.getitem (ds : TextSamplerDataset) (rand_start : ℕ) : List ℕ :=
  (ds.data.drop rand_start).take (ds.seq_len + 1)

-- Benchmark wrapper, lines 8-12 and 53-67.  timer() builds a torch.cuda.Event;
-- Event.record and torch.cuda.synchronize raise when no CUDA device exists,
-- and otherwise record the current wall-clock reading.  The CUDA runtime is
-- modelled by a flag plus the sequence of times the event records would read.

structure TimerEnv where
  cudaAvailable : Bool
  eventTime : ℕ → ℚ

def noCudaMsg : String := "Found no NVIDIA driver on your system"

/-- Event.record for the k-th record call: reads the clock, or raises without CUDA. -/
def cudaEventRecord (env : TimerEnv) (k : ℕ) : Except String ℚ :=
  if env.cudaAvailable then Except.ok (env.eventTime k) else Except.error noCudaMsg

/-- Line 63: torch.cuda.synchronize(), which raises without CUDA. -/
def cudaSynchronize (env : TimerEnv) : Except String Unit :=
  if env.cudaAvailable then Except.ok () else Except.error noCudaMsg

/-- Lines 53-67: benchmark(fn) records a start event, runs fn, records an end
event, synchronizes, and returns (fn result, elapsed time); each CUDA call is
attempted unconditionally, whatever DEVICE_STR resolved to. -/
def benchmark {α β : Type} (env : TimerEnv) (fn : α → β) : α → Except String (β × ℚ) :=
  fun a =>
    match cudaEventRecord env 0 with
    | Except.error e => Except.error e
    | Except.ok t0 =>
      let out := fn a
      match cudaEventRecord env 1 with
      | Except.error e => Except.error e
      | Except.ok t1 =>
        match cudaSynchronize env with
        | Except.error e => Except.error e
        | Except.ok _ => Except.ok (out, t1 - t0)

-- Training loop, lines 115-131.  One iteration runs GRAD_ACCUM_EVERY backward
-- passes on the scaled combined loss, then clips the gradient norm to 0.5,
-- then steps the optimizer, then zeroes the gradients.

/-- Line 123: the scalar handed to .backward() for one micro-batch,
(loss + small_loss * EARLY_EXIT_LOSS_WEIGHT) / GRAD_ACCUM_EVERY. -/
def backwardScalar (loss small_loss : ℚ) : ℚ :=
  (loss + small_loss * EARLY_EXIT_LOSS_WEIGHT) / (GRAD_ACCUM_EVERY : ℚ)

inductive TrainEvent where
  | backward (scalar : ℚ)
  | clipGradNorm (maxNorm : ℚ)
  | optimStep
  | zeroGrad
deriving DecidableEq

def TrainEvent.isBackward : TrainEvent → Bool
  | .backward _ => true
  | _ => false

/-- Lines 118-131: the ordered gradient-relevant calls of one training
iteration, given the (full loss, early-exit loss) pair of the k-th
micro-batch. -/
def trainIterEvents (losses : ℕ → ℚ × ℚ) : List TrainEvent :=
  ((List.range GRAD_ACCUM_EVERY).map fun k =>
      TrainEvent.backward (backwardScalar (losses k).1 (losses k).2)) ++
    [TrainEvent.clipGradNorm (1 / 2), TrainEvent.optimStep, TrainEvent.zeroGrad]

/-- The scalars handed to .backward() during one iteration, in order. -/
def backwardScalars (events : List TrainEvent) : List ℚ :=
  events.filterMap fun e =>
    match e with
    | TrainEvent.backward s => some s
    | _ => none

-- Validation / generation cadence, lines 133 and 142.

/-- Line 133: validation runs when i % VALIDATE_EVERY == 0. -/
def validateTrigger (i : ℕ) : Bool := i % VALIDATE_EVERY == 0

/-- Line 142: generation runs when i % GENERATE_EVERY == 0. -/
def generateTrigger (i : ℕ) : Bool := i % GENERATE_EVERY == 0

/-- Line 145: the generation prompt is the first PRIME_LENGTH tokens of a
validation sample. -/
def genPrompt (sample : List ℕ) : List ℕ := sample.take PRIME_LENGTH

-- Speculative decoding.  base_decoding and speculative_decoding_with_same_model
-- are imported on line 14 from the external speculative_decoding package, whose
-- code is not part of this repository; the definitions below are therefore
-- modelled from the spec (sections 4.3, 4.4 and 7), with section 4.4 step 3 as
-- the normative accept/reject and residual-resampling rule.

/-- Modelled from the spec (section 4.4 step 3 and section 7b): the acceptance
probability for a draft token t with proposal distribution q and target
distribution p is min(1, p(t)/q(t)), and a zero draft probability means
automatic rejection (never divide by zero). -/
def acceptProb {V : ℕ} (p q : Fin V → ℚ) (t : Fin V) : ℚ :=
  if q t = 0 then 0 else min 1 (p t / q t)

/-- Modelled from the spec (glossary): the unnormalized residual mass
max(0, p(x) - q(x)) at token x. -/
def residual {V : ℕ} (p q : Fin V → ℚ) (x : Fin V) : ℚ :=
  max 0 (p x - q x)

/-- Total unnormalized residual mass. -/
def residualMass {V : ℕ} (p q : Fin V → ℚ) : ℚ :=
  ∑ t, residual p q t

/-- Modelled from the spec (section 4.4 step 3): the residual distribution
max(0, p - q) renormalized; zero total mass (p = q) never arises after a
rejection, and is mapped to the zero function. -/
def residualDist {V : ℕ} (p q : Fin V → ℚ) (x : Fin V) : ℚ :=
  if residualMass p q = 0 then 0 else residual p q x / residualMass p q

/-- Probability that the accept/reject test rejects the drafted token: the
draft is drawn from q and then rejected with probability 1 - acceptProb. -/
def rejectProb {V : ℕ} (p q : Fin V → ℚ) : ℚ :=
  ∑ t, q t * (1 - acceptProb p q t)

/-- Distribution of the token emitted at one draft position: either the drafted
token survives the accept test, or a replacement is drawn from the residual
distribution. -/
def emitProb {V : ℕ} (p q : Fin V → ℚ) (x : Fin V) : ℚ :=
  q x * acceptProb p q x + rejectProb p q * residualDist p q x

-- Operational decoders.  The model's randomness is a stream of uniform draws
-- rng : ℕ → ℚ; sampling from a finite distribution is inverse-CDF selection.
-- The vocabulary is Fin (V + 1) so that a default token exists.

/-- Inverse-CDF walk: the first token whose cumulative probability exceeds the
uniform draw u, starting from accumulated mass acc. -/
def invCDFAux {V : ℕ} (f : Fin V → ℚ) (u : ℚ) : List (Fin V) → ℚ → Option (Fin V)
  | [], _ => none
  | x :: xs, acc => if u < acc + f x then some x else invCDFAux f u xs (acc + f x)

/-- Sample a token from the distribution f by inverse CDF at the draw u. -/
def sampleTok {V : ℕ} (f : Fin (V + 1) → ℚ) (u : ℚ) : Fin (V + 1) :=
  (invCDFAux f u (List.finRange (V + 1)) 0).getD 0

/-- Modelled from the spec (section 2): the sequence model exposes two named
next-token distributions over one parameter set, the full-depth head and the
cheap early-exit head. -/
structure SpecModel (V : ℕ) where
  fullProb : List (Fin (V + 1)) → Fin (V + 1) → ℚ
  earlyProb : List (Fin (V + 1)) → Fin (V + 1) → ℚ

/-- Recursion for base decoding: append n tokens sampled from the full-depth
head, consuming one uniform draw per step. -/
def baseDecodeGo {V : ℕ} (model : SpecModel V) (rng : ℕ → ℚ) :
    ℕ → List (Fin (V + 1)) → ℕ → List (Fin (V + 1))
  | 0, seq, _ => seq
  | Nat.succ n, seq, k =>
      baseDecodeGo model rng n (seq ++ [sampleTok (model.fullProb seq) (rng k)]) (k + 1)

/-- Modelled from the spec (section 4.3): base_decoding starts from the prompt
and appends one full-depth sample at a time until the target length is
reached. -/
def base_decoding {V : ℕ} (model : SpecModel V) (prompt : List (Fin (V + 1)))
    (seq_len : ℕ) (rng : ℕ → ℚ) : List (Fin (V + 1)) :=
  baseDecodeGo model rng (seq_len - prompt.length) prompt 0

/-- Modelled from the spec (section 4.4 step 1): autoregressively draft g
tokens from the early-exit head. -/
def draftTokens {V : ℕ} (model : SpecModel V) (rng : ℕ → ℚ) :
    ℕ → List (Fin (V + 1)) → ℕ → List (Fin (V + 1))
  | 0, _, _ => []
  | Nat.succ g, ctx, k =>
      let t := sampleTok (model.earlyProb ctx) (rng k)
      t :: draftTokens model rng g (ctx ++ [t]) (k + 1)

/-- Modelled from the spec (section 4.4 step 3): walk the drafted tokens left
to right and count the accepted prefix, stopping at the first rejection; a
zero draft probability rejects outright. -/
def acceptCountAux {V : ℕ} (model : SpecModel V) (rng : ℕ → ℚ) :
    List (Fin (V + 1)) → List (Fin (V + 1)) → ℕ → ℕ
  | _, [], _ => 0
  | ctx, t :: ts, k =>
      if model.earlyProb ctx t = 0 then 0
      else if rng k ≤ min 1 (model.fullProb ctx t / model.earlyProb ctx t) then
        1 + acceptCountAux model rng (ctx ++ [t]) ts (k + 1)
      else 0

/-- Modelled from the spec (section 4.4): one speculative block at context seq,
drafting g tokens.  Draws k..k+g-1 draft, k+g..k+2g-1 run the accept tests,
and draw k+2g resamples from the residual distribution at the first rejection
or, with every draft accepted, samples the bonus token from the full-depth
head.  Returns (extended sequence, accepted count, next draw index). -/
def specStep {V : ℕ} (model : SpecModel V) (rng : ℕ → ℚ) (g : ℕ)
    (seq : List (Fin (V + 1))) (k : ℕ) : List (Fin (V + 1)) × ℕ × ℕ :=
  let drafts := draftTokens model rng g seq k
  let a := acceptCountAux model rng seq drafts (k + g)
  if a < g then
    let ctx := seq ++ drafts.take a
    let t := sampleTok (residualDist (model.fullProb ctx) (model.earlyProb ctx))
      (rng (k + 2 * g))
    (ctx ++ [t], a, k + 2 * g + 1)
  else
    let ctx := seq ++ drafts
    let t := sampleTok (model.fullProb ctx) (rng (k + 2 * g))
    (ctx ++ [t], a, k + 2 * g + 1)

/-- Modelled from the spec (sections 4.4 and 7c): outer speculative loop,
truncating the draft block so it never overshoots the target length, and
accumulating the accepted-token count and the block count for the average. -/
def specLoop {V : ℕ} (model : SpecModel V) (rng : ℕ → ℚ) (gamma seq_len : ℕ) :
    ℕ → List (Fin (V + 1)) → ℕ → ℚ → ℕ → List (Fin (V + 1)) × ℚ × ℕ
  | 0, seq, _, tot, blocks => (seq, tot, blocks)
  | Nat.succ fuel, seq, k, tot, blocks =>
      if seq.length < seq_len then
        let r := specStep model rng (min gamma (seq_len - seq.length)) seq k
        specLoop model rng gamma seq_len fuel r.1 r.2.2 (tot + (r.2.1 : ℚ)) (blocks + 1)
      else (seq, tot, blocks)

/-- Modelled from the spec (sections 4.4 and 6): speculative decoding returns
the completed token sequence, truncated to the target length rather than
overshooting, together with the average accepted-token count per block. -/
def speculative_decoding_with_same_model {V : ℕ} (model : SpecModel V)
    (prompt : List (Fin (V + 1))) (seq_len gamma : ℕ) (rng : ℕ → ℚ) :
    List (Fin (V + 1)) × ℚ :=
  let r := specLoop model rng gamma seq_len seq_len prompt 0 0 0
  (r.1.take seq_len, r.2.1 / (r.2.2 : ℚ))

-- Generation trigger, lines 142-157.  The trigger switches the model to
-- evaluation mode, slices the prompt, and runs both decoders.  Modelled from
-- the spec (section 5): the decoding entry points run in a read-only,
-- no-gradient mode, so they read the parameters and create no gradient state.

structure TrainState (V : ℕ) where
  model : SpecModel V
  grads : List ℚ
  trainingMode : Bool

/-- Modelled from the spec (section 5) and lines 142-157: the generation
trigger calls model.eval(), takes the first PRIME_LENGTH tokens of a
validation sample as the prompt, and runs base decoding and speculative
decoding with target length GENERATE_LENGTH and draft size GAMMA under the
read-only, no-gradient mode. -/
def generationBlock {V : ℕ} (s : TrainState V) (valSample : List (Fin (V + 1)))
    (rng : ℕ → ℚ) :
    TrainState V × List (Fin (V + 1)) × (List (Fin (V + 1)) × ℚ) :=
  let sEval : TrainState V := { s with trainingMode := false }
  let inp := valSample.take PRIME_LENGTH
  let sampled := base_decoding sEval.model inp GENERATE_LENGTH rng
  let specRes := speculative_decoding_with_same_model sEval.model inp GENERATE_LENGTH GAMMA rng
  (sEval, sampled, specRes)

-- Theorems.

/-- Claim C2: the scalar handed to .backward() for each micro-batch is exactly
(full_loss + exit_weight * early_exit_loss) / 4, with
exit_weight = EARLY_EXIT_LOSS_WEIGHT = 1 by default. -/
theorem combined_loss_scalar :
    ∀ full_loss early_exit_loss : ℚ,
      backwardScalar full_loss early_exit_loss
          = (full_loss + EARLY_EXIT_LOSS_WEIGHT * early_exit_loss) / 4 ∧
      EARLY_EXIT_LOSS_WEIGHT = 1 := by
  intro fl el
  refine ⟨?_, rfl⟩
  simp [backwardScalar, EARLY_EXIT_LOSS_WEIGHT, GRAD_ACCUM_EVERY]

/-- Claim C7: TextSamplerDataset.__getitem__ returns a slice of length exactly
seq_len + 1 whenever rand_start lies in the range [0, data_size - seq_len)
that torch.randint draws from. -/
theorem getitem_length :
    ∀ (ds : TextSamplerDataset) (rand_start : ℕ),
      rand_start < ds.data.length - ds.seq_len →
      (ds.getitem rand_start).length = ds.seq_len + 1 := by
  intro ds rs h
  simp only [TextSamplerDataset.getitem, List.length_take, List.length_drop]
  omega

/-- Witness for C7 at SEQ_LEN = 512: a 514-byte buffer sliced at rand_start = 1
yields 513 tokens. -/
theorem getitem_length_witness :
    ((TextSamplerDataset.mk (List.replicate (SEQ_LEN + 2) 0) SEQ_LEN).getitem 1).length
      = SEQ_LEN + 1 :=
  getitem_length _ 1 (by rw [List.length_replicate]; norm_num [SEQ_LEN])

/-- Claim C10: decode_tokens preserves the token count and renders every token
as a code point at least 32, tokens below 32 becoming the space character. -/
theorem decode_tokens_printable :
    ∀ tokens : List ℕ,
      (decode_tokens tokens).length = tokens.length ∧
      (∀ c ∈ decode_tokens tokens, 32 ≤ c) ∧
      (∀ t : ℕ, t < 32 → decode_token t = 32) := by
  intro ts
  refine ⟨by simp [decode_tokens], ?_, ?_⟩
  · intro c hc
    simp only [decode_tokens, List.mem_map] at hc
    obtain ⟨t, _, ht⟩ := hc
    simp only [decode_token] at ht
    omega
  · intro t ht
    simp only [decode_token]
    omega

/-- Witness for C10: the control token 7 renders as the space code point 32,
and the printable token 200 stays at least 32. -/
theorem decode_tokens_printable_witness :
    32 ≤ decode_token 200 ∧ decode_token 7 = 32 := by
  have h := decode_tokens_printable [200]
  exact ⟨h.2.1 (decode_token 200) (by decide), h.2.2 7 (by decide)⟩

/-- Claim C8: validation fires exactly at iterations divisible by 100 and
generation exactly at iterations divisible by 500 (both at iteration 0),
every generation step is a validation step, and generation uses a
PRIME_LENGTH = 128 token prompt with target length GENERATE_LENGTH = 512. -/
theorem cadence_triggers :
    (∀ i, validateTrigger i = true ↔ i % 100 = 0) ∧
    (∀ i, generateTrigger i = true ↔ i % 500 = 0) ∧
    validateTrigger 0 = true ∧
    generateTrigger 0 = true ∧
    (∀ i, generateTrigger i = true → validateTrigger i = true) ∧
    (∀ sample : List ℕ, PRIME_LENGTH ≤ sample.length →
      (genPrompt sample).length = PRIME_LENGTH) ∧
    PRIME_LENGTH = 128 ∧ GENERATE_LENGTH = 512 := by
  refine ⟨?_, ?_, rfl, rfl, ?_, ?_, rfl, rfl⟩
  · intro i
    simp [validateTrigger, VALIDATE_EVERY]
  · intro i
    simp [generateTrigger, GENERATE_EVERY]
  · intro i h
    simp only [generateTrigger, GENERATE_EVERY, beq_iff_eq] at h
    simp only [validateTrigger, VALIDATE_EVERY, beq_iff_eq]
    omega
  · intro sample h
    simp only [genPrompt, List.length_take]
    omega

/-- Witness for C8: iteration 1500 is a generation step hence also a
validation step, and a 513-token validation sample yields a 128-token
prompt. -/
theorem cadence_triggers_witness :
    validateTrigger 1500 = true ∧
      (genPrompt (List.replicate 513 0)).length = PRIME_LENGTH := by
  have h := cadence_triggers
  exact ⟨h.2.2.2.2.1 1500 (by decide),
    h.2.2.2.2.2.1 (List.replicate 513 0) (by norm_num [PRIME_LENGTH])⟩

/-- Claim C5: with a working CUDA runtime, benchmark(fn) returns a pair whose
first component is exactly fn's result and whose second is the elapsed time
between the two recorded events. -/
theorem benchmark_preserves_result :
    ∀ (α β : Type) (env : TimerEnv) (fn : α → β) (a : α),
      env.cudaAvailable = true →
      benchmark env fn a = Except.ok (fn a, env.eventTime 1 - env.eventTime 0) := by
  intro α β env fn a h
  simp [benchmark, cudaEventRecord, cudaSynchronize, h]

/-- Witness for C5: benchmarking Nat.succ at 3 returns 4 with the elapsed
time of a constant clock. -/
theorem benchmark_preserves_result_witness :
    benchmark ⟨true, fun _ => 0⟩ Nat.succ 3 = Except.ok (4, 0) := by
  have h := benchmark_preserves_result ℕ ℕ ⟨true, fun _ => 0⟩ Nat.succ 3 rfl
  simpa using h

/-- Claim C9: the benchmark wrapper is CUDA-only: without a CUDA runtime,
DEVICE_STR resolves to "cpu" yet every benchmarked call still attempts the
CUDA event calls and raises instead of returning a pair. -/
theorem benchmark_requires_cuda :
    ∀ env : TimerEnv, env.cudaAvailable = false →
      DEVICE_STR env.cudaAvailable = "cpu" ∧
      ∀ (α β : Type) (fn : α → β) (a : α),
        benchmark env fn a = Except.error noCudaMsg := by
  intro env h
  constructor
  · simp [DEVICE_STR, h]
  · intro α β fn a
    simp [benchmark, cudaEventRecord, h]

/-- Witness for C9: on a CUDA-less machine, benchmarking the identity raises
the no-driver error. -/
theorem benchmark_requires_cuda_witness :
    benchmark ⟨false, fun _ => 0⟩ (id : ℕ → ℕ) 0 = Except.error noCudaMsg :=
  (benchmark_requires_cuda ⟨false, fun _ => 0⟩ rfl).2 ℕ ℕ id 0

/-- Claim C3: the generation trigger is read-only on the learnable state: it
leaves the model parameters and the gradient state untouched, and its decoding
outputs depend only on the parameters, not on gradient state or mode flags. -/
theorem generation_no_grad :
    ∀ (V : ℕ) (s : TrainState V) (valSample : List (Fin (V + 1))) (rng : ℕ → ℚ),
      (generationBlock s valSample rng).1.model = s.model ∧
      (generationBlock s valSample rng).1.grads = s.grads ∧
      ∀ (g : List ℚ) (m : Bool),
        (generationBlock { model := s.model, grads := g, trainingMode := m } valSample rng).2
          = (generationBlock s valSample rng).2 := by
  intro V s v r
  exact ⟨rfl, rfl, fun g m => rfl⟩

-- Enumerating the four micro-batches of one training iteration.

theorem range_accum : List.range GRAD_ACCUM_EVERY = [0, 1, 2, 3] := rfl

/-- Claim C4: one training iteration backpropagates exactly GRAD_ACCUM_EVERY = 4
micro-batch scalars, each the combined loss divided by 4 so that their sum is
the micro-batch average, and the only non-backward events are, in order, one
gradient clip to 0.5, one optimizer step, and one gradient zeroing after it;
no clip occurs between micro-batches or after the step. -/
theorem grad_accum_and_clip_order :
    ∀ losses : ℕ → ℚ × ℚ,
      GRAD_ACCUM_EVERY = 4 ∧
      trainIterEvents losses
          = ((trainIterEvents losses).filter fun e => e.isBackward) ++
            [TrainEvent.clipGradNorm (1 / 2), TrainEvent.optimStep, TrainEvent.zeroGrad] ∧
      ((trainIterEvents losses).filter fun e => e.isBackward).length = GRAD_ACCUM_EVERY ∧
      (backwardScalars (trainIterEvents losses)).sum
          = (∑ k ∈ Finset.range GRAD_ACCUM_EVERY,
              ((losses k).1 + EARLY_EXIT_LOSS_WEIGHT * (losses k).2))
            / (GRAD_ACCUM_EVERY : ℚ) ∧
      (∀ s, TrainEvent.backward s ∈ trainIterEvents losses →
        ∃ k < GRAD_ACCUM_EVERY,
          s = ((losses k).1 + EARLY_EXIT_LOSS_WEIGHT * (losses k).2)
            / (GRAD_ACCUM_EVERY : ℚ)) := by
  intro losses
  refine ⟨rfl, ?_, ?_, ?_, ?_⟩
  · simp [trainIterEvents, range_accum, TrainEvent.isBackward, List.filter]
  · simp [trainIterEvents, range_accum, TrainEvent.isBackward, List.filter,
      GRAD_ACCUM_EVERY]
  · have h4 : List.range (4 : ℕ) = [0, 1, 2, 3] := rfl
    simp only [trainIterEvents, backwardScalars, backwardScalar,
      GRAD_ACCUM_EVERY, h4, List.map_cons, List.map_nil, List.cons_append,
      List.nil_append, List.filterMap_cons, List.filterMap_nil, List.sum_cons,
      List.sum_nil, EARLY_EXIT_LOSS_WEIGHT, Finset.sum_range_succ,
      Finset.sum_range_zero]
    push_cast
    ring
  · intro s hs
    have h4 : List.range (4 : ℕ) = [0, 1, 2, 3] := rfl
    simp only [trainIterEvents, backwardScalar, GRAD_ACCUM_EVERY, h4,
      List.map_cons, List.map_nil, List.cons_append, List.nil_append,
      List.mem_cons, List.not_mem_nil, or_false] at hs
    rcases hs with h | h | h | h | h | h | h
    · injection h with h'
      exact ⟨0, by norm_num [GRAD_ACCUM_EVERY], by
        rw [h']; norm_num [GRAD_ACCUM_EVERY]; ring⟩
    · injection h with h'
      exact ⟨1, by norm_num [GRAD_ACCUM_EVERY], by
        rw [h']; norm_num [GRAD_ACCUM_EVERY]; ring⟩
    · injection h with h'
      exact ⟨2, by norm_num [GRAD_ACCUM_EVERY], by
        rw [h']; norm_num [GRAD_ACCUM_EVERY]; ring⟩
    · injection h with h'
      exact ⟨3, by norm_num [GRAD_ACCUM_EVERY], by
        rw [h']; norm_num [GRAD_ACCUM_EVERY]; ring⟩
    · exact absurd h (by simp)
    · exact absurd h (by simp)
    · exact absurd h (by simp)

-- Length bookkeeping for the two decoders.

theorem baseDecodeGo_length {V : ℕ} (model : SpecModel V) (rng : ℕ → ℚ) :
    ∀ (n : ℕ) (seq : List (Fin (V + 1))) (k : ℕ),
      (baseDecodeGo model rng n seq k).length = seq.length + n := by
  intro n
  induction n with
  | zero => intro seq k; rfl
  | succ m ih =>
      intro seq k
      rw [baseDecodeGo, ih]
      simp only [List.length_append, List.length_cons, List.length_nil]
      omega

theorem specStep_length_ge {V : ℕ} (model : SpecModel V) (rng : ℕ → ℚ) (g : ℕ)
    (seq : List (Fin (V + 1))) (k : ℕ) :
    seq.length + 1 ≤ (specStep model rng g seq k).1.length := by
  rw [specStep]
  split
  · simp only [List.length_append, List.length_cons, List.length_nil]
    omega
  · simp only [List.length_append, List.length_cons, List.length_nil]
    omega

theorem specLoop_length_ge {V : ℕ} (model : SpecModel V) (rng : ℕ → ℚ)
    (gamma seq_len : ℕ) :
    ∀ (fuel : ℕ) (seq : List (Fin (V + 1))) (k : ℕ) (tot : ℚ) (blocks : ℕ),
      seq_len ≤ seq.length + fuel →
      seq_len ≤ (specLoop model rng gamma seq_len fuel seq k tot blocks).1.length := by
  intro fuel
  induction fuel with
  | zero =>
      intro seq k tot blocks h
      simpa [specLoop] using h
  | succ n ih =>
      intro seq k tot blocks h
      rw [specLoop]
      by_cases hlt : seq.length < seq_len
      · rw [if_pos hlt]
        apply ih
        have := specStep_length_ge model rng (min gamma (seq_len - seq.length)) seq k
        omega
      · rw [if_neg hlt]
        exact Nat.le_of_not_lt hlt

/-- Claim C6: base_decoding(model, prompt, length) returns a completed token
sequence of the target length, and speculative_decoding_with_same_model
(model, prompt, length, gamma) returns a pair, unpacked at the call sites as
a completed token sequence of the target length together with the average
acceptance count per block. -/
theorem decoding_interfaces :
    ∀ (V : ℕ) (model : SpecModel V) (prompt : List (Fin (V + 1)))
      (seq_len gamma : ℕ) (rng : ℕ → ℚ),
      prompt.length ≤ seq_len →
      (base_decoding model prompt seq_len rng).length = seq_len ∧
      ∃ (seq : List (Fin (V + 1))) (avg : ℚ),
        speculative_decoding_with_same_model model prompt seq_len gamma rng
            = (seq, avg) ∧
        seq.length = seq_len := by
  intro V model prompt sl g rng h
  constructor
  · rw [base_decoding, baseDecodeGo_length]
    omega
  · refine ⟨(speculative_decoding_with_same_model model prompt sl g rng).1,
      (speculative_decoding_with_same_model model prompt sl g rng).2, rfl, ?_⟩
    have hlen := specLoop_length_ge model rng g sl sl prompt 0 0 0 (by omega)
    simp only [speculative_decoding_with_same_model, List.length_take]
    omega

/-- Witness for C6: with a one-token vocabulary, deterministic draws, an empty
prompt and target length 1, base decoding completes to length 1 and
speculative decoding returns a pair whose sequence also has length 1. -/
theorem decoding_interfaces_witness :
    (base_decoding (SpecModel.mk (fun _ _ => 1) (fun _ _ => 1) : SpecModel 0)
        [] 1 (fun _ => 0)).length = 1 ∧
    ∃ (seq : List (Fin 1)) (avg : ℚ),
      speculative_decoding_with_same_model
          (SpecModel.mk (fun _ _ => 1) (fun _ _ => 1) : SpecModel 0)
          [] 1 1 (fun _ => 0) = (seq, avg) ∧
      seq.length = 1 :=
  decoding_interfaces 0 (SpecModel.mk (fun _ _ => 1) (fun _ _ => 1)) [] 1 1
    (fun _ => 0) (by simp)

-- Exactness of the accept/reject step with residual correction.

theorem mul_acceptProb_eq_min {V : ℕ} (p q : Fin V → ℚ) (t : Fin V)
    (hp : 0 ≤ p t) (hq : 0 ≤ q t) :
    q t * acceptProb p q t = min (p t) (q t) := by
  unfold acceptProb
  by_cases h : q t = 0
  · rw [if_pos h, h, mul_zero]
    exact (min_eq_right hp).symm
  · have hq0 : 0 < q t := lt_of_le_of_ne hq (Ne.symm h)
    rw [if_neg h, mul_min_of_nonneg _ _ hq, mul_one, mul_comm,
      div_mul_cancel₀ _ h, min_comm]

theorem min_add_residual {V : ℕ} (p q : Fin V → ℚ) (x : Fin V) :
    min (p x) (q x) + residual p q x = p x := by
  unfold residual
  rcases le_total (p x) (q x) with h | h
  · rw [min_eq_left h, max_eq_left (by linarith)]
    ring
  · rw [min_eq_right h, max_eq_right (by linarith)]
    ring

theorem rejectProb_eq_residualMass {V : ℕ} (p q : Fin V → ℚ)
    (hp : ∀ t, 0 ≤ p t) (hq : ∀ t, 0 ≤ q t)
    (hps : ∑ t, p t = 1) (hqs : ∑ t, q t = 1) :
    rejectProb p q = residualMass p q := by
  unfold rejectProb residualMass
  have h1 : ∀ t : Fin V, q t * (1 - acceptProb p q t) = q t - min (p t) (q t) := by
    intro t
    rw [mul_sub, mul_one, mul_acceptProb_eq_min p q t (hp t) (hq t)]
  have h2 : ∀ t : Fin V, residual p q t = p t - min (p t) (q t) := by
    intro t
    have := min_add_residual p q t
    linarith
  calc ∑ t, q t * (1 - acceptProb p q t)
      = ∑ t, (q t - min (p t) (q t)) := Finset.sum_congr rfl fun t _ => h1 t
    _ = 1 - ∑ t, min (p t) (q t) := by rw [Finset.sum_sub_distrib, hqs]
    _ = ∑ t, (p t - min (p t) (q t)) := by rw [Finset.sum_sub_distrib, hps]
    _ = ∑ t, residual p q t := Finset.sum_congr rfl fun t _ => (h2 t).symm

/-- Claim C1: speculative decoding is distributionally exact.  For any
full-depth distribution p and early-exit draft distribution q over the
vocabulary, the token a speculative position emits — the drafted token kept
with probability min(1, p/q) (automatic rejection when q is zero), otherwise
a replacement drawn from the renormalized residual max(0, p - q) — has
marginal distribution exactly p, the distribution base_decoding samples from
at that position, with no shortcut of the residual renormalization. -/
theorem speculative_sampling_exact :
    ∀ (V : ℕ) (p q : Fin V → ℚ),
      (∀ t, 0 ≤ p t) → (∀ t, 0 ≤ q t) →
      ∑ t, p t = 1 → ∑ t, q t = 1 →
      ∀ x, emitProb p q x = p x := by
  intro V p q hp hq hps hqs x
  unfold emitProb residualDist
  rw [mul_acceptProb_eq_min p q x (hp x) (hq x),
    rejectProb_eq_residualMass p q hp hq hps hqs]
  by_cases hm : residualMass p q = 0
  · rw [if_pos hm, mul_zero, add_zero]
    have hz : ∀ t ∈ (Finset.univ : Finset (Fin V)), residual p q t = 0 :=
      (Finset.sum_eq_zero_iff_of_nonneg fun t _ => le_max_left _ _).mp hm
    have hxz : residual p q x = 0 := hz x (Finset.mem_univ x)
    have hxle : p x ≤ q x := by
      unfold residual at hxz
      by_contra hcon
      push_neg at hcon
      rw [max_eq_right (by linarith)] at hxz
      linarith
    exact min_eq_left hxle
  · rw [if_neg hm, mul_comm (residualMass p q), div_mul_cancel₀ _ hm]
    exact min_add_residual p q x

/-- Witness for C1 on a two-token vocabulary with p = (1/2, 1/2) and
q = (1/4, 3/4): the emitted-token distribution at token 0 equals p there. -/
theorem speculative_sampling_exact_witness :
    emitProb (fun _ : Fin 2 => (1 : ℚ) / 2)
      (fun t : Fin 2 => if t = 0 then (1 : ℚ) / 4 else 3 / 4) 0 = 1 / 2 :=
  speculative_sampling_exact 2 _ _
    (fun t => by fin_cases t <;> norm_num)
    (fun t => by fin_cases t <;> norm_num)
    (by norm_num [Fin.sum_univ_two])
    (by norm_num [Fin.sum_univ_two])
    0

/-- Witness for C4 with every micro-batch loss pair (1, 1): the backward
scalar 1/2 is the combined loss 2 divided by 4. -/
theorem grad_accum_and_clip_order_witness :
    ∃ k < GRAD_ACCUM_EVERY,
      (1 : ℚ) / 2 = (1 + EARLY_EXIT_LOSS_WEIGHT * 1) / (GRAD_ACCUM_EVERY : ℚ) :=
  (grad_accum_and_clip_order fun _ => (1, 1)).2.2.2.2 (1 / 2) (by
    have h4 : List.range (4 : ℕ) = [0, 1, 2, 3] := rfl
    simp only [trainIterEvents, GRAD_ACCUM_EVERY, h4, List.map_cons,
      List.map_nil, List.cons_append, List.nil_append, List.mem_cons]
    left
    simp only [TrainEvent.backward.injEq]
    norm_num [backwardScalar, EARLY_EXIT_LOSS_WEIGHT, GRAD_ACCUM_EVERY])

end SpecDec
